import Mathlib

set_option maxRecDepth 10000
set_option maxHeartbeats 1600000

/-!
Verification of the btrust bencode decoder and torrent metainfo projector
(`src/main.rs`), via a shallow embedding in Lean.

Byte slices are modelled as `List Nat` (each element an octet value).
Rust functions that can panic are modelled with the `PResult` type below:
`panic` for a Rust panic (out-of-bounds slice index, `Result::unwrap` on an
`Err`, arithmetic overflow), `err` for an `Err(String)` return, `ok` for `Ok`.
`usize` arithmetic that can overflow is computed modulo `2 ^ 64`.
-/

/-- Outcome of running a Rust function returning `Result<A, String>`:
it can panic, return `Err`, or return `Ok`. -/
inductive PResult (α : Type) where
  | panic : PResult α
  | err : String → PResult α
  | ok : α → PResult α
deriving DecidableEq

/-- The `BencodeValue` enum of `src/main.rs`.  `BString` content is a byte
list, `BInteger` is the mathematical value of the `i64`, `BDictionary`
(`HashMap<BString, BencodeValue>`) is modelled as an association list
observed only through lookup and overwriting insert. -/
inductive BencodeValue where
  | string : List Nat → BencodeValue
  | integer : Int → BencodeValue
  | list : List BencodeValue → BencodeValue
  | dictionary : List (List Nat × BencodeValue) → BencodeValue

/-- The `FilesInfo` struct of `src/main.rs`; `path` holds the byte lists of the
UTF-8-validated path segments. -/
structure FilesInfo where
  length : Nat
  path : List (List Nat)
deriving DecidableEq

/-- The `Info` struct of `src/main.rs`; `name` holds the bytes of the validated
UTF-8 string, `usize` fields are `Nat`. -/
structure Info where
  name : List Nat
  piece_length : Nat
  pieces : List Nat
  length : Option Nat
  files : Option (List FilesInfo)
deriving DecidableEq

/-- The `Torrent` struct of `src/main.rs`. -/
structure Torrent where
  announce : List Nat
  info : Info
deriving DecidableEq

/-- Bytes of an ASCII string literal. -/
def strBytes (s : String) : List Nat :=
  s.data.map Char.toNat

/-- Index of the first occurrence of byte `t`, or the length of the list if
`t` does not occur: the `while i < data.len() && data[i] != t` scan. -/
def scanTo (t : Nat) : List Nat → Nat
  | [] => 0
  | b :: rest => if b = t then 0 else scanTo t rest + 1

/-- Value of a non-empty all-decimal-digit byte list, `none` otherwise. -/
def digitsVal (l : List Nat) : Option Nat :=
  if l = [] then none
  else if l.all (fun b => 48 ≤ b && b ≤ 57) then
    some (l.foldl (fun acc b => acc * 10 + (b - 48)) 0)
  else none

/-- Rust `str::parse::<usize>`: optional leading `+`, then one or more
decimal digits, value at most `usize::MAX`. -/
def parseUsize (l : List Nat) : Option Nat :=
  let l' := match l with
    | 43 :: r => r
    | r => r
  match digitsVal l' with
  | some v => if v < 2 ^ 64 then some v else none
  | none => none

/-- Rust `str::parse::<i64>`: optional sign, then one or more decimal
digits, value within the `i64` range. -/
def parseI64 (l : List Nat) : Option Int :=
  match l with
  | 45 :: r =>
    match digitsVal r with
    | some v => if v ≤ 2 ^ 63 then some (-(v : Int)) else none
    | none => none
  | 43 :: r =>
    match digitsVal r with
    | some v => if v ≤ 2 ^ 63 - 1 then some ((v : Int)) else none
    | none => none
  | r =>
    match digitsVal r with
    | some v => if v ≤ 2 ^ 63 - 1 then some ((v : Int)) else none
    | none => none

/-- One-byte-at-a-time UTF-8 recognizer.  The first argument is the list
of (lower, upper) bounds still required of the next continuation bytes of
the current multi-byte sequence; on an empty requirement list a new
sequence starts at the next byte.  Leading-byte dispatch follows RFC 3629
(as enforced by Rust `String::from_utf8`): `C2..DF` take one continuation
byte `80..BF`; `E0`/`ED`/other `E1..EF` take two with first byte
`A0..BF`/`80..9F`/`80..BF`; `F0`/`F1..F3`/`F4` take three with first byte
`90..BF`/`80..BF`/`80..8F`; bytes `80..C1` and `F5..` are invalid
leads. -/
def utf8Run : List (Nat × Nat) → List Nat → Bool
  | [], [] => true
  | _ :: _, [] => false
  | (lo, hi) :: need, b :: rest => (lo ≤ b && b ≤ hi) && utf8Run need rest
  | [], b :: rest =>
    if b < 128 then utf8Run [] rest
    else if b < 194 then false
    else if b ≤ 223 then utf8Run [(128, 191)] rest
    else if b = 224 then utf8Run [(160, 191), (128, 191)] rest
    else if b = 237 then utf8Run [(128, 159), (128, 191)] rest
    else if b ≤ 239 then utf8Run [(128, 191), (128, 191)] rest
    else if b = 240 then utf8Run [(144, 191), (128, 191), (128, 191)] rest
    else if b ≤ 243 then utf8Run [(128, 191), (128, 191), (128, 191)] rest
    else if b = 244 then utf8Run [(128, 143), (128, 191), (128, 191)] rest
    else false

/-- UTF-8 validity of a byte list, as checked by Rust `String::from_utf8`:
RFC 3629 well-formedness (no overlongs, no surrogates, at most
U+10FFFF). -/
def utf8Valid (l : List Nat) : Bool :=
  utf8Run [] l

/-- Model of `parse_bencode_string` of `src/main.rs`.  Scans for the `:` separator,
validates and parses the decimal length prefix, then takes that many
content bytes.  The Rust index computation `i + 1 + len` is a `usize`
addition: it is modelled modulo `2 ^ 64`, and the slice
`&data[i + 1..i + 1 + len]` panics when its bounds are invalid. -/
def parse_bencode_string (data : List Nat) : PResult (List Nat × BencodeValue) :=
  let i := scanTo 58 data
  if i = data.length then .err "Invalid BString format"
  else if utf8Valid (data.take i) then
    match parseUsize (data.take i) with
    | some len =>
      let e := (i + 1 + len) % 2 ^ 64
      if e > data.length then .err "Missing some String bytes"
      else if i + 1 ≤ e then
        .ok (data.drop e, .string ((data.drop (i + 1)).take (e - (i + 1))))
      else .panic
    | none => .err "Failed to parse len"
  else .err "Failed to get len from string"

/-- Model of `parse_bencode_integer` of `src/main.rs` (input is the bytes after the
leading `i`).  Scans for `e`, parses the prefix as `i64`; the final slice
`&data[i + 1..]` panics when no `e` was found and the numeral still
parsed. -/
def parse_bencode_integer (data : List Nat) : PResult (List Nat × BencodeValue) :=
  let i := scanTo 101 data
  if utf8Valid (data.take i) then
    match parseI64 (data.take i) with
    | some v =>
      if i + 1 ≤ data.length then .ok (data.drop (i + 1), .integer v) else .panic
    | none => .err "failed to parse num"
  else .err "Invalid utf-8 bytes in num"

/-- Rust `HashMap::insert` observed through lookup: any earlier binding of the
key is discarded and the new binding added. -/
def dictInsert (m : List (List Nat × BencodeValue)) (k : List Nat) (v : BencodeValue) :
    List (List Nat × BencodeValue) :=
  m.filter (fun p => !(p.1 == k)) ++ [(k, v)]

/-- Rust `HashMap::get` on the association-list model. -/
def dictGet (m : List (List Nat × BencodeValue)) (k : List Nat) : Option BencodeValue :=
  match m.find? (fun p => p.1 == k) with
  | some p => some p.2
  | none => none

/-- The `while` loop of `parse_bencode_list` of `src/main.rs`: `pb` is the
recursive `parse_bencode` call, `items` the accumulator.  The extra `Nat`
is recursion fuel; the source loop terminates because each element consumes
input, and every statement proved below either supplies the fuel as a
hypothesis or uses a concrete input with enough fuel. -/
def bencodeListLoop (pb : List Nat → PResult (List Nat × BencodeValue)) :
    Nat → List Nat → List BencodeValue → PResult (List Nat × BencodeValue)
  | 0, _, _ => .err "out of fuel"
  | lfuel + 1, data, items =>
    match data with
    | [] => .err "Unterminated list"
    | b :: rest =>
      if b = 101 then .ok (rest, .list items)
      else
        match pb data with
        | .ok (newRest, v) => bencodeListLoop pb lfuel newRest (items ++ [v])
        | .err e => .err e
        | .panic => .panic

/-- The `while` loop of `parse_bencode_dictionary` of `src/main.rs`:
parses a key with `parse_bencode_string`, a value with the recursive
`parse_bencode` call `pb`, and inserts into the map. -/
def bencodeDictLoop (pb : List Nat → PResult (List Nat × BencodeValue)) :
    Nat → List Nat → List (List Nat × BencodeValue) → PResult (List Nat × BencodeValue)
  | 0, _, _ => .err "out of fuel"
  | dfuel + 1, data, m =>
    match data with
    | [] => .err "Unterminated Dictionary"
    | b :: rest =>
      if b = 101 then .ok (rest, .dictionary m)
      else
        match parse_bencode_string data with
        | .ok (r1, BencodeValue.string k) =>
          match pb r1 with
          | .ok (r2, v) => bencodeDictLoop pb dfuel r2 (dictInsert m k v)
          | .err e => .err e
          | .panic => .panic
        | .ok (_, _) => .err "Dictionary key must be BString"
        | .err e => .err e
        | .panic => .panic

/-- Model of `parse_bencode` of `src/main.rs`, with recursion fuel.  The unchecked
`data[0]` read panics on the empty slice; otherwise dispatch is on the
first byte. -/
def parse_bencode : Nat → List Nat → PResult (List Nat × BencodeValue)
  | 0, _ => .err "out of fuel"
  | fuel + 1, data =>
    match data with
    | [] => .panic
    | b :: rest =>
      if b = 105 then parse_bencode_integer rest
      else if b = 108 then bencodeListLoop (parse_bencode fuel) fuel rest []
      else if b = 100 then bencodeDictLoop (parse_bencode fuel) fuel rest []
      else if 48 ≤ b ∧ b ≤ 57 then parse_bencode_string data
      else .err "Invalid bencode data format"

/-- Top-level decode: `parse_bencode` with fuel amply sufficient for the
input (each recursive call consumes input, so nesting and iteration are
bounded by the input length). -/
def decode (data : List Nat) : PResult (List Nat × BencodeValue) :=
  parse_bencode (2 * data.length + 2) data

/-- Model of `parse_bencode_dictionary` of `src/main.rs` (input is the bytes after
the leading `d`), with the fuel of the recursive `parse_bencode` calls
made explicit. -/
def parse_bencode_dictionary (fuel : Nat) (data : List Nat) :
    PResult (List Nat × BencodeValue) :=
  bencodeDictLoop (parse_bencode fuel) fuel data []

/-- Specification-side variant of `bencodeDictLoop` that records the
parsed key/value pairs in input order instead of inserting them into the
map: used to relate the decoded Dictionary to the sequence of bindings in
the serialized input. -/
def dictPairsLoop (pb : List Nat → PResult (List Nat × BencodeValue)) :
    Nat → List Nat → List (List Nat × BencodeValue) →
    PResult (List Nat × List (List Nat × BencodeValue))
  | 0, _, _ => .err "out of fuel"
  | dfuel + 1, data, acc =>
    match data with
    | [] => .err "Unterminated Dictionary"
    | b :: rest =>
      if b = 101 then .ok (rest, acc)
      else
        match parse_bencode_string data with
        | .ok (r1, BencodeValue.string k) =>
          match pb r1 with
          | .ok (r2, v) => dictPairsLoop pb dfuel r2 (acc ++ [(k, v)])
          | .err e => .err e
          | .panic => .panic
        | .ok (_, _) => .err "Dictionary key must be BString"
        | .err e => .err e
        | .panic => .panic

/-- The key/value pairs of a serialized dictionary body, in input order. -/
def dictPairs (fuel : Nat) (data : List Nat) :
    PResult (List Nat × List (List Nat × BencodeValue)) :=
  dictPairsLoop (parse_bencode fuel) fuel data []

/-- Value paired with the last occurrence of key `k` in a pair list. -/
def lastVal (k : List Nat) : List (List Nat × BencodeValue) → Option BencodeValue
  | [] => none
  | p :: rest =>
    match lastVal k rest with
    | some v => some v
    | none => if p.1 = k then some p.2 else none

/-- Two-complement-style `v as usize` cast applied by `parse_torrent_info` to
`i64` integer fields. -/
def toUsize (v : Int) : Nat :=
  (v % (2 ^ 64 : Int)).toNat

/-- The inner `for item in items` loop over `"path"` segments in
`parse_torrent_info` of `src/main.rs`: every segment must be a ByteString
holding valid UTF-8. -/
def parsePathItems : List BencodeValue → PResult (List (List Nat))
  | [] => .ok []
  | item :: rest =>
    match item with
    | BencodeValue.string c =>
      if utf8Valid c then
        match parsePathItems rest with
        | .ok tail => .ok (c :: tail)
        | .err e => .err e
        | .panic => .panic
      else .err "Invalid utf-8 bytes in path"
    | _ => .err "path item must be a string"

/-- The `for fileinfo in items` loop of `parse_torrent_info` of
`src/main.rs`: each element must be a Dictionary with an Integer
`"length"` and a List `"path"` of UTF-8 ByteStrings. -/
def parseFilesItems : List BencodeValue → PResult (List FilesInfo)
  | [] => .ok []
  | item :: rest =>
    match item with
    | BencodeValue.dictionary fd =>
      match dictGet fd (strBytes "length") with
      | some (BencodeValue.integer v) =>
        match dictGet fd (strBytes "path") with
        | some (BencodeValue.list pitems) =>
          match parsePathItems pitems with
          | .ok path =>
            match parseFilesItems rest with
            | .ok tail => .ok (⟨toUsize v, path⟩ :: tail)
            | .err e => .err e
            | .panic => .panic
          | .err e => .err e
          | .panic => .panic
        | _ => .err "Invalid or Missing fileinfo path"
      | _ => .err "Invalid or MIssing fileinfo length"
    | _ => .err "fileinfo should be a BDictionary"

/-- Model of `parse_torrent_info` of `src/main.rs`: sequential extraction of
`"name"`, `"piece length"`, `"pieces"`, then the `"length"` /
`"files"` branch. -/
def parse_torrent_info (info : List (List Nat × BencodeValue)) : PResult Info :=
  match dictGet info (strBytes "name") with
  | some (BencodeValue.string nb) =>
    if utf8Valid nb then
      match dictGet info (strBytes "piece length") with
      | some (BencodeValue.integer plv) =>
        match dictGet info (strBytes "pieces") with
        | some (BencodeValue.string pcs) =>
          match dictGet info (strBytes "length") with
          | some (BencodeValue.integer lv) =>
            .ok ⟨nb, toUsize plv, pcs, some (toUsize lv), none⟩
          | none =>
            match dictGet info (strBytes "files") with
            | some (BencodeValue.list items) =>
              match parseFilesItems items with
              | .ok result => .ok ⟨nb, toUsize plv, pcs, none, some result⟩
              | .err e => .err e
              | .panic => .panic
            | _ => .err "Missing or Invalid info files"
          | some _ => .err "Invalid info length"
        | _ => .err "Invalid or Missing pieces info"
      | _ => .err "Invalid or Missing info piece length"
    else .err "Invalid utf-8 bytes in name"
  | _ => .err "Invalid or Missing info name"

/-- Model of `parse_torrent` of `src/main.rs`: decodes, requires a Dictionary root
with no trailing bytes, then extracts `"announce"` — note the
`String::from_utf8(..).unwrap()`, a panic on invalid UTF-8 — and
`"info"`. -/
def parse_torrent (data : List Nat) : PResult Torrent :=
  match decode data with
  | .ok (rest, BencodeValue.dictionary dict) =>
    if rest = [] then
      match dictGet dict (strBytes "announce") with
      | some (BencodeValue.string content) =>
        if utf8Valid content then
          match dictGet dict (strBytes "info") with
          | some (BencodeValue.dictionary idict) =>
            match parse_torrent_info idict with
            | .ok inf => .ok ⟨content, inf⟩
            | .err e => .err e
            | .panic => .panic
          | _ => .err "Invalid or Missing torrent info field"
        else .panic
      | _ => .err "Invalid or Missing announce url"
    else .err "Trailing bytes after root element"
  | .ok (_, _) => .err "Expected root element to be a BDictionary"
  | .err e => .err e
  | .panic => .panic

example : parse_bencode_string (strBytes "3:foo") =
    .ok ([], .string (strBytes "foo")) := rfl

example : parse_bencode_string (strBytes "5:ab") =
    .err "Missing some String bytes" := rfl

example : parse_bencode_integer (strBytes "56e") =
    .ok ([], .integer 56) := rfl

example : parse_bencode_integer (strBytes "56") = .panic := rfl

example : decode (strBytes "l3:foo3:bare") =
    .ok ([], .list [.string (strBytes "foo"), .string (strBytes "bar")]) := rfl

example : decode (strBytes "d1:a3:fooe") =
    .ok ([], .dictionary [(strBytes "a", .string (strBytes "foo"))]) := rfl

example : decode [] = .panic := rfl

example :
    parse_torrent (strBytes "d8:announce11:example.com4:infod4:name9:blindspot12:piece lengthi20e6:pieces5:hello6:lengthi10eee") =
    .ok ⟨strBytes "example.com",
      ⟨strBytes "blindspot", 20, strBytes "hello", some 10, none⟩⟩ := by
  rfl

example :
    parse_torrent (strBytes "d8:announce11:example.com4:infod4:name9:blindspot12:piece lengthi20e6:pieces5:hello5:filesld6:lengthi10e4:pathl5:path15:path2eeeee") =
    .ok ⟨strBytes "example.com",
      ⟨strBytes "blindspot", 20, strBytes "hello", none,
        some [⟨10, [strBytes "path1", strBytes "path2"]⟩]⟩⟩ := by
  rfl

/-- C1: the spec says an `"announce"` key present as a ByteString whose
content is not valid UTF-8 is a reported failure, but `parse_torrent`
calls `String::from_utf8(..).unwrap()` on it: on the input
`d8:announce1:<0xff>e` — whose top-level decode is a Dictionary with no
trailing bytes and whose `"announce"` maps to the ByteString `[0xff]` —
the program panics instead of returning an error. -/
theorem c1_panic_on_invalid_announce :
    parse_torrent (strBytes "d8:announce1:" ++ [255, 101]) = PResult.panic := by
  rfl

/-- C3: the claim says every input beginning with `i` whose remainder has
no `e` terminator makes integer decoding fail with an error, naming
`b"i56"`; in fact on `b"i56"` the numeral `56` parses successfully and the
slice `&data[i + 1..]` is then out of bounds, so decode panics. -/
theorem c3_panic_on_unterminated_integer :
    decode (strBytes "i56") = PResult.panic := by
  rfl

/-- C4: the claim (and the doc comment on `FilesInfo.path`) says an entry
whose `"path"` key maps to an empty List is rejected; in fact
`parse_torrent_info` accepts it and produces a `FilesInfo` with an empty
`path`: on an info dictionary with `files = [{length: 0, path: []}]`
projection succeeds with `path = []`. -/
theorem c4_empty_path_accepted :
    parse_torrent_info
      [(strBytes "name", .string (strBytes "n")),
       (strBytes "piece length", .integer 1),
       (strBytes "pieces", .string []),
       (strBytes "files", .list [.dictionary
         [(strBytes "length", .integer 0), (strBytes "path", .list [])]])] =
    PResult.ok ⟨strBytes "n", 1, [], none, some [⟨0, []⟩]⟩ := by
  rfl

/-- C7: the decoder is lenient about integer canonical form: `i03e`
decodes to Integer 3 and `i-0e` to Integer 0, both with empty remainder,
although the grammar comments declare these encodings invalid. -/
theorem c7_lenient_integers :
    decode (strBytes "i03e") = PResult.ok ([], BencodeValue.integer 3) ∧
    decode (strBytes "i-0e") = PResult.ok ([], BencodeValue.integer 0) := by
  exact ⟨rfl, rfl⟩

/-- C8: `parse_bencode` reads `data[0]` without a bounds check, so on the
empty input the decoder panics instead of returning a decode error. -/
theorem c8_empty_input_panics :
    decode [] = PResult.panic := by
  rfl

/-- C6: whenever the top-level decode of an input yields a Dictionary with
a non-empty remainder, `parse_torrent` fails with the trailing-data error
instead of returning a Torrent. -/
theorem c6_trailing_bytes_err (data rest : List Nat) (d : List (List Nat × BencodeValue))
    (h : decode data = PResult.ok (rest, BencodeValue.dictionary d))
    (hne : rest ≠ []) :
    parse_torrent data = PResult.err "Trailing bytes after root element" := by
  unfold parse_torrent
  rw [h]
  simp [hne]

/-- C6 witness: `d1:a3:fooeX` decodes to a Dictionary with remainder `X`,
and `parse_torrent` reports the trailing-data error on it. -/
theorem c6_trailing_bytes_err_witness :
    decode (strBytes "d1:a3:fooeX") =
      PResult.ok ([88], BencodeValue.dictionary [(strBytes "a", BencodeValue.string (strBytes "foo"))]) ∧
    ([88] : List Nat) ≠ [] ∧
    parse_torrent (strBytes "d1:a3:fooeX") = PResult.err "Trailing bytes after root element" :=
  ⟨rfl, by simp,
    c6_trailing_bytes_err (strBytes "d1:a3:fooeX") [88]
      [(strBytes "a", BencodeValue.string (strBytes "foo"))] rfl (by simp)⟩

/-- C2: every `Info` produced by a successful `parse_torrent_info` has
exactly one of `length` and `files` set: either `length` is `some` and
`files` is `none`, or `length` is `none` and `files` is `some`. -/
theorem c2_length_files_exclusive (d : List (List Nat × BencodeValue)) (t : Info)
    (h : parse_torrent_info d = PResult.ok t) :
    (t.length.isSome = true ∧ t.files = none) ∨
    (t.length = none ∧ t.files.isSome = true) := by
  unfold parse_torrent_info at h
  repeat' split at h
  all_goals simp only [PResult.ok.injEq, reduceCtorEq] at h
  · left
    rw [← h]
    exact ⟨rfl, rfl⟩
  · right
    rw [← h]
    exact ⟨rfl, rfl⟩

/-- C2 witness: a concrete single-file info dictionary projects
successfully, with `length` set and `files` empty. -/
theorem c2_length_files_exclusive_witness :
    parse_torrent_info
      [(strBytes "name", BencodeValue.string (strBytes "n")),
       (strBytes "piece length", BencodeValue.integer 4),
       (strBytes "pieces", BencodeValue.string []),
       (strBytes "length", BencodeValue.integer 7)] =
      PResult.ok ⟨strBytes "n", 4, [], some 7, none⟩ ∧
    (((⟨strBytes "n", 4, [], some 7, none⟩ : Info).length.isSome = true ∧
        (⟨strBytes "n", 4, [], some 7, none⟩ : Info).files = none) ∨
      ((⟨strBytes "n", 4, [], some 7, none⟩ : Info).length = none ∧
        (⟨strBytes "n", 4, [], some 7, none⟩ : Info).files.isSome = true)) :=
  ⟨rfl,
    c2_length_files_exclusive
      [(strBytes "name", BencodeValue.string (strBytes "n")),
       (strBytes "piece length", BencodeValue.integer 4),
       (strBytes "pieces", BencodeValue.string []),
       (strBytes "length", BencodeValue.integer 7)]
      ⟨strBytes "n", 4, [], some 7, none⟩ (by rfl)⟩

/-- C9: negative integer fields are wrapped, not rejected: whenever
projection succeeds and `"piece length"`, `"length"`, or a per-file
`"length"` maps to a negative Integer `v`, the corresponding `usize`
field of the result is `v` modulo `2 ^ 64` (the two-complement wraparound of the
`as usize` cast). -/
theorem c9_negative_wrapped :
    (∀ d t v, parse_torrent_info d = PResult.ok t →
      dictGet d (strBytes "piece length") = some (BencodeValue.integer v) →
      v < 0 → t.piece_length = toUsize v) ∧
    (∀ d t v, parse_torrent_info d = PResult.ok t →
      dictGet d (strBytes "length") = some (BencodeValue.integer v) →
      v < 0 → t.length = some (toUsize v)) ∧
    (∀ fd rest res v,
      parseFilesItems (BencodeValue.dictionary fd :: rest) = PResult.ok res →
      dictGet fd (strBytes "length") = some (BencodeValue.integer v) →
      v < 0 → ∃ fi tail, res = fi :: tail ∧ fi.length = toUsize v) := by
  refine ⟨?_, ?_, ?_⟩
  · intro d t v h hget _
    unfold parse_torrent_info at h
    rw [hget] at h
    repeat' split at h
    all_goals simp only [PResult.ok.injEq, reduceCtorEq] at h
    all_goals subst h
    all_goals simp_all
  · intro d t v h hget _
    unfold parse_torrent_info at h
    rw [hget] at h
    repeat' split at h
    all_goals simp only [PResult.ok.injEq, reduceCtorEq] at h
    all_goals subst h
    all_goals simp_all
  · intro fd rest res v h hget _
    simp only [parseFilesItems] at h
    rw [hget] at h
    repeat' split at h
    all_goals simp only [PResult.ok.injEq, reduceCtorEq] at h
    all_goals refine ⟨_, _, h.symm, ?_⟩
    all_goals simp_all

/-- C9 witness: an info dictionary with `piece length = -1` and
`length = -2` projects successfully with the wrapped values, and a files
entry with `length = -3` yields the wrapped per-file length. -/
theorem c9_negative_wrapped_witness :
    parse_torrent_info
      [(strBytes "name", BencodeValue.string (strBytes "n")),
       (strBytes "piece length", BencodeValue.integer (-1)),
       (strBytes "pieces", BencodeValue.string []),
       (strBytes "length", BencodeValue.integer (-2))] =
      PResult.ok ⟨strBytes "n", toUsize (-1), [], some (toUsize (-2)), none⟩ ∧
    ((-1 : Int) < 0 ∧ (-2 : Int) < 0 ∧ (-3 : Int) < 0) ∧
    toUsize (-1) = 2 ^ 64 - 1 ∧
    (⟨strBytes "n", toUsize (-1), [], some (toUsize (-2)), none⟩ : Info).piece_length =
      toUsize (-1) ∧
    (⟨strBytes "n", toUsize (-1), [], some (toUsize (-2)), none⟩ : Info).length =
      some (toUsize (-2)) ∧
    (∃ fi tail,
      ([⟨toUsize (-3), []⟩] : List FilesInfo) = fi :: tail ∧ fi.length = toUsize (-3)) :=
  ⟨by rfl, ⟨by decide, by decide, by decide⟩, by decide,
    c9_negative_wrapped.1
      [(strBytes "name", BencodeValue.string (strBytes "n")),
       (strBytes "piece length", BencodeValue.integer (-1)),
       (strBytes "pieces", BencodeValue.string []),
       (strBytes "length", BencodeValue.integer (-2))]
      ⟨strBytes "n", toUsize (-1), [], some (toUsize (-2)), none⟩ (-1)
      (by rfl) (by rfl) (by decide),
    c9_negative_wrapped.2.1
      [(strBytes "name", BencodeValue.string (strBytes "n")),
       (strBytes "piece length", BencodeValue.integer (-1)),
       (strBytes "pieces", BencodeValue.string []),
       (strBytes "length", BencodeValue.integer (-2))]
      ⟨strBytes "n", toUsize (-1), [], some (toUsize (-2)), none⟩ (-2)
      (by rfl) (by rfl) (by decide),
    c9_negative_wrapped.2.2
      [(strBytes "length", BencodeValue.integer (-3)), (strBytes "path", BencodeValue.list [])]
      [] [⟨toUsize (-3), []⟩] (-3) (by rfl) (by rfl) (by decide)⟩

/-- C5 counterexample: the claim says every input with a decimal length
prefix, a `:`, and fewer content bytes than declared yields a
malformed-grammar error and never panics; on
`b"18446744073709551615:"` (declared length `usize::MAX`, zero content
bytes) the `usize` computation `i + 1 + len` overflows and the content
slice bounds are invalid, so `parse_bencode_string` panics. -/
theorem c5_overflow_panic :
    parse_bencode_string (strBytes "18446744073709551615:") = PResult.panic := by
  rfl

/-- A list of bytes below 128 is valid UTF-8. -/
lemma utf8Valid_of_ascii : ∀ l : List Nat, (∀ b ∈ l, b < 128) → utf8Valid l = true
  | [], _ => rfl
  | b :: rest, h => by
    have hb : b < 128 := h b (List.mem_cons_self b rest)
    have ih := utf8Valid_of_ascii rest (fun x hx => h x (List.mem_cons_of_mem b hx))
    unfold utf8Valid at ih ⊢
    rw [utf8Run, if_pos hb]
    exact ih

/-- Scanning for `t` over a prefix free of `t` finds the first `t` right
after the prefix. -/
lemma scanTo_append (t : Nat) :
    ∀ ds rest : List Nat, (∀ b ∈ ds, b ≠ t) → scanTo t (ds ++ t :: rest) = ds.length
  | [], rest, _ => by
    show scanTo t (t :: rest) = 0
    unfold scanTo
    simp
  | b :: ds, rest, h => by
    have hb : b ≠ t := h b (List.mem_cons_self b ds)
    have ih := scanTo_append t ds rest (fun x hx => h x (List.mem_cons_of_mem b hx))
    show scanTo t (b :: (ds ++ t :: rest)) = ds.length + 1
    unfold scanTo
    rw [if_neg hb, ih]

/-- Rust `str::parse::<usize>` on a non-empty digit string returns its value
when that value is within `usize` range. -/
lemma parseUsize_digits (l : List Nat) (v : Nat)
    (hdig : ∀ b ∈ l, 48 ≤ b ∧ b ≤ 57) (hne : l ≠ [])
    (hv : digitsVal l = some v) (hlt : v < 2 ^ 64) :
    parseUsize l = some v := by
  unfold parseUsize
  cases l with
  | nil => exact absurd rfl hne
  | cons b r =>
    have hb : 48 ≤ b ∧ b ≤ 57 := hdig b (List.mem_cons_self b r)
    split
    · rename_i r' heq
      rw [List.cons.injEq] at heq
      omega
    · simp only [hv]
      simp only [if_pos hlt]

/-- C5 (amended): for every input that begins with a non-empty decimal
length prefix and `:` but holds fewer content bytes than the declared
length, provided the index computation `i + 1 + len` stays within `usize`
(the claim fails without this proviso, see the overflow counterexample),
`parse_bencode_string` returns the malformed-grammar error
`Missing some String bytes`. -/
theorem c5_truncated_string_err (ds rest : List Nat) (v : Nat)
    (hdig : ∀ b ∈ ds, 48 ≤ b ∧ b ≤ 57) (hne : ds ≠ [])
    (hv : digitsVal ds = some v) (hshort : rest.length < v)
    (hnof : ds.length + 1 + v < 2 ^ 64) :
    parse_bencode_string (ds ++ 58 :: rest) = PResult.err "Missing some String bytes" := by
  have hscan : scanTo 58 (ds ++ 58 :: rest) = ds.length :=
    scanTo_append 58 ds rest (fun b hb => by have := hdig b hb; omega)
  have htake : (ds ++ 58 :: rest).take ds.length = ds := List.take_left ds (58 :: rest)
  have hlen : (ds ++ 58 :: rest).length = ds.length + (rest.length + 1) := by
    simp [List.length_append]
  have hvalid : utf8Valid ds = true :=
    utf8Valid_of_ascii ds (fun b hb => by have := hdig b hb; omega)
  have husize : parseUsize ds = some v :=
    parseUsize_digits ds v hdig hne hv (by omega)
  unfold parse_bencode_string
  simp only [hscan, htake, hlen, hvalid, husize, if_true]
  rw [if_neg (by omega)]
  rw [Nat.mod_eq_of_lt hnof]
  rw [if_pos (by omega)]

/-- C5 witness: the example from the spec, `b"5:ab"` (declared length 5, two
content bytes, no overflow) yields the malformed-grammar error. -/
theorem c5_truncated_string_err_witness :
    (∀ b ∈ [53], 48 ≤ b ∧ b ≤ 57) ∧ ([53] : List Nat) ≠ [] ∧
    digitsVal [53] = some 5 ∧ ([97, 98] : List Nat).length < 5 ∧
    [53].length + 1 + 5 < 2 ^ 64 ∧
    parse_bencode_string ([53] ++ 58 :: [97, 98]) =
      PResult.err "Missing some String bytes" :=
  ⟨by decide, by decide, by decide, by decide, by decide,
    c5_truncated_string_err [53] [97, 98] 5 (by decide) (by decide) (by decide)
      (by decide) (by decide)⟩

/-- Filtering out bindings of a different key does not change the first
binding found for `k`. -/
lemma find?_key_filter (k k' : List Nat) (h : k' ≠ k) :
    ∀ m : List (List Nat × BencodeValue),
      (m.filter (fun p => !(p.1 == k'))).find? (fun p => p.1 == k) =
        m.find? (fun p => p.1 == k)
  | [] => rfl
  | p :: m => by
    by_cases hp : p.1 = k'
    · have h1 : (!(p.1 == k')) = false := by simp [hp]
      rw [List.filter_cons, h1]
      simp only [Bool.false_eq_true, if_false]
      rw [List.find?_cons_of_neg _ (by simp [hp, h])]
      exact find?_key_filter k k' h m
    · have h1 : (!(p.1 == k')) = true := by simp [hp]
      rw [List.filter_cons, h1]
      simp only [if_true]
      by_cases hk : p.1 = k
      · rw [List.find?_cons_of_pos _ (by simp [hk]), List.find?_cons_of_pos _ (by simp [hk])]
      · rw [List.find?_cons_of_neg _ (by simp [hk]), List.find?_cons_of_neg _ (by simp [hk])]
        exact find?_key_filter k k' h m

/-- Lookup after an overwriting insert: the inserted key finds the new
value, any other key is unaffected. -/
lemma dictGet_insert (m : List (List Nat × BencodeValue)) (k' : List Nat)
    (v' : BencodeValue) (k : List Nat) :
    dictGet (dictInsert m k' v') k = if k' = k then some v' else dictGet m k := by
  unfold dictGet dictInsert
  rw [List.find?_append]
  by_cases h : k' = k
  · subst h
    have h1 : (m.filter (fun p => !(p.1 == k'))).find? (fun p => p.1 == k') = none := by
      rw [List.find?_eq_none]
      intro x hx
      have h2 := (List.mem_filter.mp hx).2
      simp at h2 ⊢
      exact h2
    rw [h1]
    simp
  · rw [find?_key_filter k k' h m]
    have h2 : ([(k', v')].find? (fun p : List Nat × BencodeValue => p.1 == k)) = none := by
      simp [h]
    rw [h2]
    simp [h]

/-- Lookup in the map folded from a pair list: the last binding of the
key wins, and absent keys fall through to the start map. -/
lemma dictGet_foldl (k : List Nat) :
    ∀ (ps m : List (List Nat × BencodeValue)),
      dictGet (ps.foldl (fun mm kv => dictInsert mm kv.1 kv.2) m) k =
        match lastVal k ps with
        | some v => some v
        | none => dictGet m k
  | [], m => by simp [lastVal]
  | p :: ps, m => by
    rw [List.foldl_cons]
    rw [dictGet_foldl k ps (dictInsert m p.1 p.2)]
    rw [lastVal]
    cases hl : lastVal k ps with
    | some v => simp
    | none =>
      simp only [dictGet_insert]
      by_cases hp : p.1 = k <;> simp [hp]

/-- A pair list containing the key has a last value for it. -/
lemma lastVal_isSome (k : List Nat) :
    ∀ ps : List (List Nat × BencodeValue), (∃ p ∈ ps, p.1 = k) →
      (lastVal k ps).isSome = true
  | [], h => by
    obtain ⟨p, hp, _⟩ := h
    cases hp
  | p :: ps, h => by
    rw [lastVal]
    cases hl : lastVal k ps with
    | some v => simp
    | none =>
      obtain ⟨q, hq, hqk⟩ := h
      cases List.mem_cons.mp hq with
      | inl heq =>
        subst heq
        simp [hqk]
      | inr hmem =>
        have hs := lastVal_isSome k ps ⟨q, hmem, hqk⟩
        rw [hl] at hs
        simp at hs

/-- Accumulator lemma for `dictPairsLoop`: pairs already accumulated are
prepended to whatever the loop parses from here on. -/
lemma dictPairsLoop_acc (pb : List Nat → PResult (List Nat × BencodeValue)) :
    ∀ (dfuel : Nat) (data : List Nat) (acc : List (List Nat × BencodeValue)),
      dictPairsLoop pb dfuel data acc =
        match dictPairsLoop pb dfuel data [] with
        | .ok (r, ps) => .ok (r, acc ++ ps)
        | .err e => .err e
        | .panic => .panic := by
  intro dfuel
  induction dfuel with
  | zero => intro data acc; rfl
  | succ f ih =>
    intro data acc
    cases data with
    | nil => rfl
    | cons b rest =>
      rw [dictPairsLoop, dictPairsLoop]
      by_cases hb : b = 101
      · simp [hb]
      · simp only [if_neg hb]
        cases hps : parse_bencode_string (b :: rest) with
        | panic => rfl
        | err e => rfl
        | ok rv =>
          obtain ⟨r1, val⟩ := rv
          cases val with
          | integer n => rfl
          | list xs => rfl
          | dictionary dd => rfl
          | string kk =>
            dsimp only
            cases hpb : pb r1 with
            | panic => rfl
            | err e => rfl
            | ok rv2 =>
              obtain ⟨r2, v⟩ := rv2
              dsimp only
              rw [ih r2 (acc ++ [(kk, v)]), ih r2 ([] ++ [(kk, v)])]
              cases dictPairsLoop pb f r2 [] with
              | ok rp =>
                obtain ⟨r, ps⟩ := rp
                simp
              | err e => rfl
              | panic => rfl

/-- The dictionary loop is the pairs loop followed by folding the
overwriting insert over the parsed pairs. -/
lemma bencodeDictLoop_eq_pairs (pb : List Nat → PResult (List Nat × BencodeValue)) :
    ∀ (dfuel : Nat) (data : List Nat) (m : List (List Nat × BencodeValue)),
      bencodeDictLoop pb dfuel data m =
        match dictPairsLoop pb dfuel data [] with
        | .ok (r, ps) =>
          .ok (r, .dictionary (ps.foldl (fun mm kv => dictInsert mm kv.1 kv.2) m))
        | .err e => .err e
        | .panic => .panic := by
  intro dfuel
  induction dfuel with
  | zero => intro data m; rfl
  | succ f ih =>
    intro data m
    cases data with
    | nil => rfl
    | cons b rest =>
      rw [bencodeDictLoop, dictPairsLoop]
      by_cases hb : b = 101
      · simp [hb]
      · simp only [if_neg hb]
        cases hps : parse_bencode_string (b :: rest) with
        | panic => rfl
        | err e => rfl
        | ok rv =>
          obtain ⟨r1, val⟩ := rv
          cases val with
          | integer n => rfl
          | list xs => rfl
          | dictionary dd => rfl
          | string kk =>
            dsimp only
            cases hpb : pb r1 with
            | panic => rfl
            | err e => rfl
            | ok rv2 =>
              obtain ⟨r2, v⟩ := rv2
              dsimp only
              rw [ih r2 (dictInsert m kk v)]
              rw [dictPairsLoop_acc pb f r2 ([] ++ [(kk, v)])]
              cases dictPairsLoop pb f r2 [] with
              | ok rp =>
                obtain ⟨r, ps⟩ := rp
                simp
              | err e => rfl
              | panic => rfl

/-- C10: on a dictionary body whose well-formed pair sequence binds the
same key more than once, dictionary decoding succeeds (no duplicate-key
error) and the resulting Dictionary maps that key to the value of its
last occurrence in the input. -/
theorem c10_duplicate_keys_last_wins (fuel : Nat) (data rest : List Nat)
    (ps : List (List Nat × BencodeValue)) (k : List Nat)
    (hp : dictPairs fuel data = PResult.ok (rest, ps))
    (hdup : 2 ≤ (ps.filter (fun p => p.1 == k)).length) :
    ∃ m v, parse_bencode_dictionary fuel data = PResult.ok (rest, BencodeValue.dictionary m) ∧
      lastVal k ps = some v ∧ dictGet m k = some v := by
  have hmem : ∃ p ∈ ps, p.1 = k := by
    have hne : ps.filter (fun p => p.1 == k) ≠ [] := by
      intro hE
      rw [hE] at hdup
      simp at hdup
    obtain ⟨q, hq⟩ := List.exists_mem_of_ne_nil _ hne
    refine ⟨q, (List.mem_filter.mp hq).1, ?_⟩
    have h2 := (List.mem_filter.mp hq).2
    simpa using h2
  have hsome := lastVal_isSome k ps hmem
  obtain ⟨v, hv⟩ := Option.isSome_iff_exists.mp hsome
  refine ⟨ps.foldl (fun mm kv => dictInsert mm kv.1 kv.2) [], v, ?_, hv, ?_⟩
  · unfold parse_bencode_dictionary
    rw [bencodeDictLoop_eq_pairs]
    unfold dictPairs at hp
    rw [hp]
  · rw [dictGet_foldl k ps []]
    rw [hv]

/-- C10 witness: the dictionary body `1:a3:foo1:a3:bare` binds the key
`a` twice; its pair sequence parses, and decoding maps `a` to the second
value `bar`. -/
theorem c10_duplicate_keys_last_wins_witness :
    dictPairs 20 (strBytes "1:a3:foo1:a3:bare") =
      PResult.ok ([], [(strBytes "a", BencodeValue.string (strBytes "foo")),
        (strBytes "a", BencodeValue.string (strBytes "bar"))]) ∧
    2 ≤ (([(strBytes "a", BencodeValue.string (strBytes "foo")),
        (strBytes "a", BencodeValue.string (strBytes "bar"))].filter
          (fun p => p.1 == strBytes "a")).length) ∧
    (∃ m v, parse_bencode_dictionary 20 (strBytes "1:a3:foo1:a3:bare") =
        PResult.ok ([], BencodeValue.dictionary m) ∧
      lastVal (strBytes "a") [(strBytes "a", BencodeValue.string (strBytes "foo")),
        (strBytes "a", BencodeValue.string (strBytes "bar"))] = some v ∧
      dictGet m (strBytes "a") = some v) :=
  ⟨rfl, by decide,
    c10_duplicate_keys_last_wins 20 (strBytes "1:a3:foo1:a3:bare") []
      [(strBytes "a", BencodeValue.string (strBytes "foo")),
        (strBytes "a", BencodeValue.string (strBytes "bar"))]
      (strBytes "a") rfl (by decide)⟩
